import Mathlib

/-!
Shallow embedding of the business-logic core of the `gestionnaire_resto`
restaurant-management application (Django models across the `inventory`,
`orders`, `accounting` and `bookings` modules).

Monetary amounts and quantities are Django `DecimalField`s; they are
modelled as exact rationals (`ℚ`).  Model `save()` methods take an
explicit `is_new` flag mirroring the `self.pk is None` test in the
source, and databases are explicit values (lists, or total maps for
foreign-key targets).
-/

namespace Resto

/-! ## inventory/models.py -/

/-- `StockMovement.MOVEMENT_TYPE_CHOICES` in `inventory/models.py`. -/
inductive MovementType
  | IN
  | OUT
  | ADJUSTMENT
  | RETURN
  | WASTE
  deriving DecidableEq, Repr

/-- The fields of `inventory.Product` relevant to stock logic.
`id` stands for the primary key (used as foreign-key target). -/
structure Product where
  id : ℕ
  quantity_in_stock : ℚ
  minimum_stock : ℚ
  optimal_stock : ℚ
  unit_price : ℚ
  deriving DecidableEq, Repr

/-- `Product.stock_value`: `quantity_in_stock * unit_price`. -/
def Product.stock_value (p : Product) : ℚ :=
  p.quantity_in_stock * p.unit_price

/-- `Product.stock_status`: the if/elif ladder of `inventory/models.py`
lines 167-176. -/
def Product.stock_status (p : Product) : String :=
  if p.quantity_in_stock ≤ 0 then "OUT_OF_STOCK"
  else if p.quantity_in_stock < p.minimum_stock then "LOW_STOCK"
  else if p.quantity_in_stock < p.optimal_stock then "NORMAL"
  else "OPTIMAL"

/-- The fields of `inventory.StockMovement` relevant to stock logic.
`product_id` is the foreign key to the `Product` it moves. -/
structure StockMovement where
  product_id : ℕ
  movement_type : MovementType
  quantity : ℚ
  unit_price : ℚ
  deriving DecidableEq, Repr

/-- `StockMovement.total_value`: `quantity * unit_price`. -/
def StockMovement.total_value (m : StockMovement) : ℚ :=
  m.quantity * m.unit_price

/-- The stock update performed by `StockMovement.save` on a NEW movement
(`inventory/models.py` lines 242-260) on the referenced product:
IN and RETURN add `quantity`, OUT and WASTE subtract it, and the
ADJUSTMENT branch is an explicit `pass`. -/
def StockMovement.applyNew (p : Product) (m : StockMovement) : Product :=
  match m.movement_type with
  | .IN => { p with quantity_in_stock := p.quantity_in_stock + m.quantity }
  | .OUT => { p with quantity_in_stock := p.quantity_in_stock - m.quantity }
  | .WASTE => { p with quantity_in_stock := p.quantity_in_stock - m.quantity }
  | .ADJUSTMENT => p
  | .RETURN => { p with quantity_in_stock := p.quantity_in_stock + m.quantity }

/-- `StockMovement.save`, with the `is_new` flag standing for
`self.pk is None`: only a new movement touches the product's stock;
re-saving an existing movement leaves the product untouched. -/
def StockMovement.saveModel (p : Product) (m : StockMovement) (is_new : Bool) :
    Product :=
  if is_new then StockMovement.applyNew p m else p

/-- The signed contribution of one movement to the on-hand quantity. -/
def StockMovement.signedDelta (m : StockMovement) : ℚ :=
  match m.movement_type with
  | .IN => m.quantity
  | .OUT => -m.quantity
  | .WASTE => -m.quantity
  | .ADJUSTMENT => 0
  | .RETURN => m.quantity

/-- Applying a whole sequence of newly created movements to a product. -/
def applyMovements (p : Product) (ms : List StockMovement) : Product :=
  ms.foldl StockMovement.applyNew p

/-- A product database: a total map from primary keys to products,
mirroring that every `ForeignKey(Product)` dereference succeeds. -/
def ProductDb : Type := ℕ → Product

/-- Apply a newly created stock movement to the database: the
`self.product.save()` write-back inside `StockMovement.save`. -/
def ProductDb.createMovement (db : ProductDb) (m : StockMovement) : ProductDb :=
  fun i => if i = m.product_id then StockMovement.applyNew (db i) m else db i

/-! ## orders/models.py -/

/-- `MenuItemIngredient`: recipe line linking a `MenuItem` to a
`Product` via `product_id`, with `quantity_needed`. -/
structure MenuItemIngredient where
  product_id : ℕ
  quantity_needed : ℚ
  deriving DecidableEq, Repr

/-- The fields of `orders.MenuItem` relevant to stock deduction. -/
structure MenuItem where
  track_inventory : Bool
  ingredients : List MenuItemIngredient
  deriving DecidableEq, Repr

/-- `Order.STATUS_CHOICES` in `orders/models.py`. -/
inductive OrderStatus
  | PENDING
  | CONFIRMED
  | PREPARING
  | READY
  | SERVED
  | PAID
  | CANCELLED
  deriving DecidableEq, Repr

/-- The fields of `orders.OrderItem` relevant to totals and stock. -/
structure OrderItem where
  menu_item : MenuItem
  quantity : ℤ
  unit_price : ℚ
  deriving DecidableEq, Repr

/-- `OrderItem.total_price`: `quantity * unit_price`. -/
def OrderItem.total_price (i : OrderItem) : ℚ :=
  (i.quantity : ℚ) * i.unit_price

/-- The fields of `orders.Order` relevant to totals and payment. -/
structure Order where
  status : OrderStatus
  subtotal : ℚ
  tax_rate : ℚ
  tax_amount : ℚ
  discount_amount : ℚ
  total_amount : ℚ
  items : List OrderItem
  deriving DecidableEq, Repr

/-- `Order.calculate_totals` (`orders/models.py` lines 257-262):
`subtotal = Σ item.total_price()`, `tax_amount = subtotal * tax_rate / 100`,
`total_amount = subtotal + tax_amount - discount_amount`. -/
def Order.calculate_totals (o : Order) : Order :=
  let st := (o.items.map OrderItem.total_price).sum
  let tax := st * o.tax_rate / 100
  { o with
      subtotal := st
      tax_amount := tax
      total_amount := st + tax - o.discount_amount }

/-- One stock movement created by `OrderItem.deduct_from_inventory` for
one recipe ingredient: type OUT, quantity `quantity_needed * quantity`,
priced at the ingredient product's current `unit_price` read from the
database at creation time. -/
def ingredientMovement (db : ProductDb) (oi : OrderItem)
    (ing : MenuItemIngredient) : StockMovement :=
  { product_id := ing.product_id
    movement_type := .OUT
    quantity := ing.quantity_needed * (oi.quantity : ℚ)
    unit_price := (db ing.product_id).unit_price }

/-- The body of the `for ingredient in self.menu_item.ingredients.all()`
loop of `OrderItem.deduct_from_inventory`: build the OUT movement for
one ingredient, apply it to the database (`StockMovement.objects.create`
runs `StockMovement.save` on a new row) and record it. -/
def deductStep (oi : OrderItem) (acc : ProductDb × List StockMovement)
    (ing : MenuItemIngredient) : ProductDb × List StockMovement :=
  let m := ingredientMovement acc.1 oi ing
  (ProductDb.createMovement acc.1 m, acc.2 ++ [m])

/-- `OrderItem.deduct_from_inventory` (`orders/models.py` lines 388-404):
for each `MenuItemIngredient` of the menu item, create one OUT
`StockMovement` (which immediately updates the product's stock).
Returns the updated database and the created movements in order. -/
def OrderItem.deduct_from_inventory (db : ProductDb) (oi : OrderItem) :
    ProductDb × List StockMovement :=
  oi.menu_item.ingredients.foldl (deductStep oi) (db, [])

/-- `OrderItem.save` (`orders/models.py` lines 380-386): only a newly
inserted item whose menu item has `track_inventory` set fans out into
stock movements. -/
def OrderItem.saveModel (db : ProductDb) (oi : OrderItem) (is_new : Bool) :
    ProductDb × List StockMovement :=
  if is_new && oi.menu_item.track_inventory then
    OrderItem.deduct_from_inventory db oi
  else
    (db, [])

/-! ## accounting/models.py -/

/-- `AccountCategory.ACCOUNT_TYPE_CHOICES`. -/
inductive AccountType
  | ASSET
  | LIABILITY
  | EQUITY
  | REVENUE
  | EXPENSE
  deriving DecidableEq, Repr

/-- The fields of `accounting.AccountCategory` relevant to the
order-paid cascade. `id` is the primary key. -/
structure AccountCategory where
  id : ℕ
  account_type : AccountType
  deriving DecidableEq, Repr

/-- `Transaction.TRANSACTION_TYPE_CHOICES`. -/
inductive TransactionType
  | INCOME
  | EXPENSE
  deriving DecidableEq, Repr

/-- The fields of `accounting.Transaction` relevant to the order-paid
cascade. -/
structure Txn where
  transaction_type : TransactionType
  category : AccountCategory
  amount : ℚ
  deriving DecidableEq, Repr

/-- `Order.mark_paid` (`orders/models.py` lines 293-315): set the order
status to PAID, then look up the first REVENUE-type `AccountCategory`
(`.filter(account_type='REVENUE').first()`); if one exists, create one
INCOME `Transaction` for the order's `total_amount`; otherwise create
nothing.  `cats` is the `AccountCategory` table in queryset order. -/
def Order.mark_paid (o : Order) (cats : List AccountCategory) :
    Order × List Txn :=
  let o' := { o with status := .PAID }
  match (cats.filter (fun c => c.account_type = .REVENUE)).head? with
  | some c =>
      (o', [{ transaction_type := .INCOME, category := c, amount := o.total_amount }])
  | none => (o', [])

/-- `Invoice.STATUS_CHOICES`. -/
inductive InvoiceStatus
  | DRAFT
  | SENT
  | PAID
  | PARTIALLY_PAID
  | OVERDUE
  | CANCELLED
  deriving DecidableEq, Repr

/-- The fields of `accounting.Invoice` relevant to payments and status.
Dates are modelled as integer day ordinals. -/
structure Invoice where
  due_date : ℤ
  total_amount : ℚ
  paid_amount : ℚ
  status : InvoiceStatus
  deriving DecidableEq, Repr

/-- `Invoice.remaining_balance`: `total_amount - paid_amount`. -/
def Invoice.remaining_balance (inv : Invoice) : ℚ :=
  inv.total_amount - inv.paid_amount

/-- `Invoice.is_overdue`: `due_date < today` and status not PAID or
CANCELLED. `today` stands for `timezone.now().date()`. -/
def Invoice.is_overdue (inv : Invoice) (today : ℤ) : Bool :=
  inv.due_date < today &&
    !(inv.status = InvoiceStatus.PAID || inv.status = InvoiceStatus.CANCELLED)

/-- `Invoice.update_status` (`accounting/models.py` lines 221-228):
PAID if `paid_amount >= total_amount`, else PARTIALLY_PAID if
`paid_amount > 0`, else OVERDUE if `is_overdue()`, else unchanged. -/
def Invoice.update_status (inv : Invoice) (today : ℤ) : Invoice :=
  if inv.total_amount ≤ inv.paid_amount then
    { inv with status := .PAID }
  else if 0 < inv.paid_amount then
    { inv with status := .PARTIALLY_PAID }
  else if inv.is_overdue today then
    { inv with status := .OVERDUE }
  else inv

/-- The invoice update performed by `Payment.save` on a NEW payment
(`accounting/models.py` lines 325-334): add the payment's `amount` to
`paid_amount`, then `update_status()`. -/
def Payment.applyNew (inv : Invoice) (amount : ℚ) (today : ℤ) : Invoice :=
  Invoice.update_status { inv with paid_amount := inv.paid_amount + amount } today

/-- `Payment.save` with `is_new` standing for `self.pk is None`: only a
new payment touches the invoice. -/
def Payment.saveModel (inv : Invoice) (amount : ℚ) (today : ℤ)
    (is_new : Bool) : Invoice :=
  if is_new then Payment.applyNew inv amount today else inv

/-- Creating a sequence of payments against one invoice. -/
def applyPayments (inv : Invoice) (amounts : List ℚ) (today : ℤ) : Invoice :=
  amounts.foldl (fun acc a => Payment.applyNew acc a today) inv

/-! ## bookings/models.py -/

/-- `Reservation.STATUS_CHOICES`. -/
inductive ReservationStatus
  | PENDING
  | CONFIRMED
  | CANCELLED
  | NO_SHOW
  | COMPLETED
  deriving DecidableEq, Repr

/-- A reservation is active when its status is PENDING or CONFIRMED
(the `status__in=['PENDING', 'CONFIRMED']` filter). -/
def ReservationStatus.isActive : ReservationStatus → Bool
  | .PENDING => true
  | .CONFIRMED => true
  | _ => false

/-- The fields of `bookings.Reservation` relevant to the uniqueness
constraint. Dates are integer day ordinals; `time_slot` is the slot
string such as "19:30". -/
structure Reservation where
  table_id : ℕ
  reservation_date : ℤ
  time_slot : String
  status : ReservationStatus
  deriving DecidableEq, Repr

/-- Two reservations collide on the `unique_together` key
`['table', 'reservation_date', 'time_slot']`. -/
def Reservation.sameKey (a b : Reservation) : Bool :=
  a.table_id = b.table_id && a.reservation_date = b.reservation_date &&
    a.time_slot = b.time_slot

/-- `Table.is_available_at` (`bookings/models.py` lines 63-72): true iff
no PENDING or CONFIRMED reservation exists for this table, date and
slot in the reservation table `db`. -/
def Table.is_available_at (db : List Reservation) (table_id : ℕ)
    (date : ℤ) (slot : String) : Bool :=
  !(db.any (fun e =>
      e.table_id = table_id && e.reservation_date = date &&
        e.time_slot = slot && e.status.isActive))

/-- Inserting a new reservation row under the database-level
`unique_together = ['table', 'reservation_date', 'time_slot']`
constraint of `Reservation.Meta`: the insert raises a uniqueness
violation exactly when any existing row (whatever its status) already
occupies the same (table, date, slot) key. -/
def insertReservation (db : List Reservation) (r : Reservation) :
    Except String (List Reservation) :=
  if db.any (fun e => Reservation.sameKey e r) then
    Except.error "unique_together violation (table, reservation_date, time_slot)"
  else
    Except.ok (db ++ [r])

/-! ## Supporting lemmas -/

/-- A single new movement changes the on-hand quantity by its signed
delta. -/
theorem applyNew_quantity (p : Product) (m : StockMovement) :
    (StockMovement.applyNew p m).quantity_in_stock =
      p.quantity_in_stock + m.signedDelta := by
  cases h : m.movement_type <;>
    simp [StockMovement.applyNew, StockMovement.signedDelta, h, sub_eq_add_neg]

/-- A new movement never touches the other product fields. -/
theorem applyNew_frame (p : Product) (m : StockMovement) :
    (StockMovement.applyNew p m).id = p.id ∧
      (StockMovement.applyNew p m).minimum_stock = p.minimum_stock ∧
      (StockMovement.applyNew p m).optimal_stock = p.optimal_stock ∧
      (StockMovement.applyNew p m).unit_price = p.unit_price := by
  cases h : m.movement_type <;>
    simp [StockMovement.applyNew, h]

theorem applyMovements_nil (p : Product) : applyMovements p [] = p := rfl

theorem applyMovements_cons (p : Product) (m : StockMovement)
    (ms : List StockMovement) :
    applyMovements p (m :: ms) = applyMovements (StockMovement.applyNew p m) ms :=
  rfl

/-! ## Theorems for the claims -/

/-- C1: for every Product and every sequence of newly created stock
movements against it, the resulting `quantity_in_stock` equals the
initial quantity plus the signed sum of the movements, where IN and
RETURN contribute `+quantity`, OUT and WASTE contribute `-quantity`,
and ADJUSTMENT contributes zero. -/
theorem stockMovement_sequence_signed_sum (p : Product)
    (ms : List StockMovement) :
    (applyMovements p ms).quantity_in_stock =
      p.quantity_in_stock + (ms.map StockMovement.signedDelta).sum := by
  induction ms generalizing p with
  | nil => simp [applyMovements]
  | cons m ms ih =>
    rw [applyMovements_cons, ih, applyNew_quantity]
    simp [add_assoc]

/-- C6: `stock_status` is a pure function of `quantity_in_stock`,
`minimum_stock` and `optimal_stock`, classifying along the source's
if/elif ladder: OUT_OF_STOCK when quantity ≤ 0; LOW_STOCK when
0 < quantity < minimum; NORMAL when quantity is positive and
minimum ≤ quantity < optimal; OPTIMAL when quantity is positive and
at least both thresholds. -/
theorem product_stock_status_classification (p : Product) :
    (p.quantity_in_stock ≤ 0 → p.stock_status = "OUT_OF_STOCK") ∧
    (0 < p.quantity_in_stock → p.quantity_in_stock < p.minimum_stock →
      p.stock_status = "LOW_STOCK") ∧
    (0 < p.quantity_in_stock → p.minimum_stock ≤ p.quantity_in_stock →
      p.quantity_in_stock < p.optimal_stock → p.stock_status = "NORMAL") ∧
    (0 < p.quantity_in_stock → p.minimum_stock ≤ p.quantity_in_stock →
      p.optimal_stock ≤ p.quantity_in_stock → p.stock_status = "OPTIMAL") := by
  unfold Product.stock_status
  refine ⟨fun h1 => ?_, fun h1 h2 => ?_, fun h1 h2 h3 => ?_, fun h1 h2 h3 => ?_⟩ <;>
    split_ifs <;> first | rfl | linarith

/-- Witness for C6: a product with quantity 5 and minimum 10 is
classified LOW_STOCK. -/
theorem product_stock_status_classification_witness :
    (Product.mk 1 5 10 20 4).stock_status = "LOW_STOCK" :=
  (product_stock_status_classification (Product.mk 1 5 10 20 4)).2.1
    (by norm_num) (by norm_num)

/-- C9: creating an OUT movement performs no availability check: on a
product holding 5 units, an OUT movement of 10 units is applied
successfully and leaves the stock at -5, strictly negative. -/
theorem stockMovement_out_no_stock_check :
    (StockMovement.mk 1 .OUT 10 4).quantity >
        (Product.mk 1 5 0 0 4).quantity_in_stock ∧
      (StockMovement.saveModel (Product.mk 1 5 0 0 4)
          (StockMovement.mk 1 .OUT 10 4) true).quantity_in_stock = -5 ∧
      (StockMovement.saveModel (Product.mk 1 5 0 0 4)
          (StockMovement.mk 1 .OUT 10 4) true).quantity_in_stock < 0 := by
  refine ⟨by norm_num, ?_, ?_⟩ <;>
    simp [StockMovement.saveModel, StockMovement.applyNew] <;> norm_num

/-- C10: the stock and payment cascades fire only on first creation:
re-saving an existing stock movement leaves the product record
unchanged, and re-saving an existing payment leaves the invoice record
(including `paid_amount` and `status`) unchanged. -/
theorem resave_has_no_side_effect (p : Product) (m : StockMovement)
    (inv : Invoice) (amount : ℚ) (today : ℤ) :
    StockMovement.saveModel p m false = p ∧
      Payment.saveModel inv amount today false = inv :=
  ⟨rfl, rfl⟩

/-- C3: `calculate_totals` sets `subtotal` to the sum over the items of
quantity × unit price, `tax_amount` to subtotal × tax_rate / 100 and
`total_amount` to subtotal + tax_amount − discount_amount; on an order
with tax_rate 10, discount 0 and items (2 × 10.00) and (1 × 5.00) this
yields subtotal 25.00, tax 2.50, total 27.50. -/
theorem order_calculate_totals_formula (o : Order) :
    ((o.calculate_totals).subtotal =
        (o.items.map (fun i => (i.quantity : ℚ) * i.unit_price)).sum ∧
      (o.calculate_totals).tax_amount =
        (o.calculate_totals).subtotal * o.tax_rate / 100 ∧
      (o.calculate_totals).total_amount =
        (o.calculate_totals).subtotal + (o.calculate_totals).tax_amount -
          o.discount_amount) ∧
    (Order.calculate_totals
        { status := .PENDING, subtotal := 0, tax_rate := 10, tax_amount := 0,
          discount_amount := 0, total_amount := 0,
          items := [{ menu_item := { track_inventory := false, ingredients := [] },
                      quantity := 2, unit_price := 10 },
                    { menu_item := { track_inventory := false, ingredients := [] },
                      quantity := 1, unit_price := 5 }] } =
      { status := .PENDING, subtotal := 25, tax_rate := 10, tax_amount := 2.5,
        discount_amount := 0, total_amount := 27.5,
        items := [{ menu_item := { track_inventory := false, ingredients := [] },
                    quantity := 2, unit_price := 10 },
                  { menu_item := { track_inventory := false, ingredients := [] },
                    quantity := 1, unit_price := 5 }] }) := by
  constructor
  · refine ⟨rfl, rfl, rfl⟩
  · simp only [Order.calculate_totals]
    norm_num [OrderItem.total_price]

/-- C8: `calculate_totals` is idempotent: with the items unchanged, a
second call yields the same subtotal, tax amount and total amount (in
fact the same order record). -/
theorem order_calculate_totals_idempotent (o : Order) :
    (o.calculate_totals.calculate_totals).subtotal =
        (o.calculate_totals).subtotal ∧
      (o.calculate_totals.calculate_totals).tax_amount =
        (o.calculate_totals).tax_amount ∧
      (o.calculate_totals.calculate_totals).total_amount =
        (o.calculate_totals).total_amount :=
  ⟨rfl, rfl, rfl⟩

/-- `update_status` never touches the monetary fields or the due date. -/
theorem update_status_frame (inv : Invoice) (today : ℤ) :
    (inv.update_status today).paid_amount = inv.paid_amount ∧
      (inv.update_status today).total_amount = inv.total_amount ∧
      (inv.update_status today).due_date = inv.due_date := by
  unfold Invoice.update_status
  split_ifs <;> simp

/-- Case analysis of `update_status` along the source's if/elif ladder. -/
theorem update_status_cases (inv : Invoice) (today : ℤ) :
    (inv.total_amount ≤ inv.paid_amount →
      inv.update_status today = { inv with status := .PAID }) ∧
    (¬ inv.total_amount ≤ inv.paid_amount → 0 < inv.paid_amount →
      inv.update_status today = { inv with status := .PARTIALLY_PAID }) ∧
    (¬ inv.total_amount ≤ inv.paid_amount → ¬ 0 < inv.paid_amount →
      inv.is_overdue today = true →
      inv.update_status today = { inv with status := .OVERDUE }) ∧
    (¬ inv.total_amount ≤ inv.paid_amount → ¬ 0 < inv.paid_amount →
      inv.is_overdue today = false → inv.update_status today = inv) := by
  unfold Invoice.update_status
  refine ⟨fun h1 => ?_, fun h1 h2 => ?_, fun h1 h2 h3 => ?_, fun h1 h2 h3 => ?_⟩ <;>
    split_ifs <;> first | rfl | tauto | simp_all

/-- A new payment adds its amount to `paid_amount` and preserves the
other monetary fields. -/
theorem paymentApplyNew_fields (inv : Invoice) (a : ℚ) (today : ℤ) :
    (Payment.applyNew inv a today).paid_amount = inv.paid_amount + a ∧
      (Payment.applyNew inv a today).total_amount = inv.total_amount ∧
      (Payment.applyNew inv a today).due_date = inv.due_date := by
  unfold Payment.applyNew
  refine ⟨?_, ?_, ?_⟩ <;>
    simp [update_status_frame]

theorem applyPayments_append (inv : Invoice) (as : List ℚ) (a : ℚ)
    (today : ℤ) :
    applyPayments inv (as ++ [a]) today =
      Payment.applyNew (applyPayments inv as today) a today := by
  simp [applyPayments, List.foldl_append]

/-- A payment sequence accumulates its sum into `paid_amount` and
preserves `total_amount`. -/
theorem applyPayments_fields (inv : Invoice) (amounts : List ℚ)
    (today : ℤ) :
    (applyPayments inv amounts today).paid_amount =
        inv.paid_amount + amounts.sum ∧
      (applyPayments inv amounts today).total_amount = inv.total_amount := by
  induction amounts generalizing inv with
  | nil => simp [applyPayments]
  | cons a as ih =>
    have h : applyPayments inv (a :: as) today =
        applyPayments (Payment.applyNew inv a today) as today := rfl
    rw [h]
    rcases ih (Payment.applyNew inv a today) with ⟨h1, h2⟩
    rcases paymentApplyNew_fields inv a today with ⟨h3, h4, _⟩
    rw [h1, h2, h3, h4]
    simp [add_assoc]

/-- The status produced by a nonempty sequence of strictly positive
payments on an invoice that starts unpaid. -/
theorem applyPayments_final_status (inv : Invoice) (amounts : List ℚ)
    (today : ℤ) (hne : amounts ≠ []) (hpos : ∀ x ∈ amounts, 0 < x)
    (h0 : inv.paid_amount = 0) :
    (applyPayments inv amounts today).paid_amount = amounts.sum ∧
      ((applyPayments inv amounts today).status = .PAID ↔
        inv.total_amount ≤ amounts.sum) ∧
      ((applyPayments inv amounts today).status = .PARTIALLY_PAID ↔
        0 < amounts.sum ∧ amounts.sum < inv.total_amount) ∧
      (applyPayments inv amounts today).status ≠ .OVERDUE := by
  rcases (List.eq_nil_or_concat' amounts) with hnil | ⟨as, a, rfl⟩
  · exact absurd hnil hne
  have ha : 0 < a := hpos a (by simp)
  have has : 0 ≤ as.sum :=
    List.sum_nonneg (fun x hx => le_of_lt (hpos x (by simp [hx])))
  have hsum : (as ++ [a]).sum = as.sum + a := by simp
  have hpaid : (applyPayments inv as today).paid_amount = as.sum := by
    rw [(applyPayments_fields inv as today).1, h0, zero_add]
  have htot : (applyPayments inv as today).total_amount = inv.total_amount :=
    (applyPayments_fields inv as today).2
  rw [applyPayments_append]
  unfold Payment.applyNew
  have h2paid :
      ({ applyPayments inv as today with
          paid_amount := (applyPayments inv as today).paid_amount + a } :
        Invoice).paid_amount = as.sum + a := by
    simp [hpaid]
  have h2tot :
      ({ applyPayments inv as today with
          paid_amount := (applyPayments inv as today).paid_amount + a } :
        Invoice).total_amount = inv.total_amount := by
    simp [htot]
  rcases update_status_cases
      ({ applyPayments inv as today with
          paid_amount := (applyPayments inv as today).paid_amount + a })
      today with ⟨hc1, hc2, _, _⟩
  by_cases hle : inv.total_amount ≤ as.sum + a
  · rw [hc1 (by rw [h2tot, h2paid]; exact hle)]
    refine ⟨by simp [hpaid, hsum], ?_, ?_, by simp⟩
    · simp [hsum, hle]
    · simp only [hsum]
      constructor
      · intro hcontra
        exact absurd hcontra (by simp)
      · rintro ⟨_, hlt⟩
        linarith
  · rw [hc2 (by rw [h2tot, h2paid]; exact hle) (by rw [h2paid]; linarith)]
    refine ⟨by simp [hpaid, hsum], ?_, ?_, by simp⟩
    · simp only [hsum]
      constructor
      · intro hcontra
        exact absurd hcontra (by simp)
      · intro hcontra
        exact absurd hcontra hle
    · simp only [hsum]
      constructor
      · intro _
        exact ⟨by linarith, by linarith [lt_of_not_le hle]⟩
      · intro _
        trivial

/-- C2: creating a payment adds its amount to the invoice's
`paid_amount` and re-evaluates the status via `update_status`; the
re-evaluation marks PAID iff paid ≥ total (checked first, so a fully
paid invoice is never marked overdue), PARTIALLY_PAID iff
0 < paid < total, OVERDUE only when neither holds and the due date has
passed, and otherwise leaves the invoice unchanged; consequently after
a nonempty sequence of positive payments summing to `paid_amount` on an
initially unpaid invoice the status is PAID iff paid ≥ total and
PARTIALLY_PAID iff 0 < paid < total, and is never OVERDUE. -/
theorem payment_invoice_status_evaluation (inv : Invoice) (a : ℚ)
    (amounts : List ℚ) (today : ℤ) :
    ((Payment.applyNew inv a today).paid_amount = inv.paid_amount + a) ∧
    (Payment.applyNew inv a today =
      Invoice.update_status { inv with paid_amount := inv.paid_amount + a }
        today) ∧
    (inv.total_amount ≤ inv.paid_amount →
      (inv.update_status today).status = .PAID) ∧
    (¬ inv.total_amount ≤ inv.paid_amount → 0 < inv.paid_amount →
      (inv.update_status today).status = .PARTIALLY_PAID) ∧
    (¬ inv.total_amount ≤ inv.paid_amount → ¬ 0 < inv.paid_amount →
      inv.is_overdue today = true →
      (inv.update_status today).status = .OVERDUE) ∧
    (¬ inv.total_amount ≤ inv.paid_amount → ¬ 0 < inv.paid_amount →
      inv.is_overdue today = false → inv.update_status today = inv) ∧
    (inv.is_overdue today = true → inv.due_date < today) ∧
    (amounts ≠ [] → (∀ x ∈ amounts, 0 < x) → inv.paid_amount = 0 →
      (applyPayments inv amounts today).paid_amount = amounts.sum ∧
        ((applyPayments inv amounts today).status = .PAID ↔
          inv.total_amount ≤ amounts.sum) ∧
        ((applyPayments inv amounts today).status = .PARTIALLY_PAID ↔
          0 < amounts.sum ∧ amounts.sum < inv.total_amount) ∧
        (applyPayments inv amounts today).status ≠ .OVERDUE) := by
  rcases update_status_cases inv today with ⟨hc1, hc2, hc3, hc4⟩
  refine ⟨(paymentApplyNew_fields inv a today).1, rfl,
    fun h1 => by rw [hc1 h1], fun h1 h2 => by rw [hc2 h1 h2],
    fun h1 h2 h3 => by rw [hc3 h1 h2 h3], fun h1 h2 h3 => hc4 h1 h2 h3,
    fun h => ?_, applyPayments_final_status inv amounts today⟩
  unfold Invoice.is_overdue at h
  simp only [Bool.and_eq_true, decide_eq_true_eq] at h
  exact h.1

/-- Witness for C2: an unpaid invoice of 100 due on day 10 receives
payments of 30 and 70 on day 0; the final status is PAID. -/
theorem payment_invoice_status_evaluation_witness :
    (applyPayments (Invoice.mk 10 100 0 .DRAFT) [30, 70] 0).status =
      InvoiceStatus.PAID := by
  have h :=
    ((payment_invoice_status_evaluation (Invoice.mk 10 100 0 .DRAFT)
        0 [30, 70] 0).2.2.2.2.2.2.2
      (by simp) (by norm_num) rfl).2.1
  exact h.mpr (by norm_num)

/-- C5: `mark_paid` always sets the order status to PAID; when at least
one REVENUE-type account category exists it creates exactly one INCOME
transaction for the order's `total_amount`, tagged to the first
REVENUE-type category in queryset order; when none exists it does not
raise and silently creates no transaction, with the order still PAID. -/
theorem order_mark_paid_cascade (o : Order) (cats : List AccountCategory) :
    ((Order.mark_paid o cats).1 = { o with status := .PAID }) ∧
    ((∀ c ∈ cats, c.account_type ≠ .REVENUE) →
      Order.mark_paid o cats = ({ o with status := .PAID }, [])) ∧
    ((∃ c ∈ cats, c.account_type = .REVENUE) →
      ∃ c, (cats.filter
            (fun x => x.account_type = AccountType.REVENUE)).head? = some c ∧
        c ∈ cats ∧ c.account_type = .REVENUE ∧
        (Order.mark_paid o cats).2 =
          [{ transaction_type := .INCOME, category := c,
             amount := o.total_amount }]) := by
  refine ⟨?_, ?_, ?_⟩
  · rcases hh : (cats.filter
        (fun x => x.account_type = AccountType.REVENUE)).head? with _ | c <;>
      simp [Order.mark_paid, hh]
  · intro h
    have hnil : cats.filter
        (fun x => x.account_type = AccountType.REVENUE) = [] := by
      rw [List.filter_eq_nil_iff]
      intro c hc
      simpa using h c hc
    simp [Order.mark_paid, hnil]
  · rintro ⟨c0, hc0, hrev⟩
    rcases hh : (cats.filter
        (fun x => x.account_type = AccountType.REVENUE)).head? with _ | c
    · rw [List.head?_eq_none_iff, List.filter_eq_nil_iff] at hh
      exact absurd (by simp [hrev]) (hh c0 hc0)
    · have hmem : c ∈ cats.filter
          (fun x => x.account_type = AccountType.REVENUE) :=
        List.mem_of_mem_head? (by simp [hh])
      rw [List.mem_filter] at hmem
      refine ⟨c, hh, hmem.1, by simpa using hmem.2, ?_⟩
      simp [Order.mark_paid, hh]

/-- Witness for C5: with categories EXPENSE, REVENUE, REVENUE, marking
an order of total 50 paid creates one INCOME transaction of 50 tagged
to the first REVENUE category. -/
theorem order_mark_paid_cascade_witness :
    (Order.mark_paid
        (Order.mk .SERVED 0 10 0 0 50 [])
        [AccountCategory.mk 1 .EXPENSE, AccountCategory.mk 2 .REVENUE,
          AccountCategory.mk 3 .REVENUE]).2 =
      [{ transaction_type := .INCOME, category := AccountCategory.mk 2 .REVENUE,
         amount := 50 }] := by
  obtain ⟨c, hc, _, _, hsnd⟩ :=
    (order_mark_paid_cascade (Order.mk .SERVED 0 10 0 0 50 [])
        [AccountCategory.mk 1 .EXPENSE, AccountCategory.mk 2 .REVENUE,
          AccountCategory.mk 3 .REVENUE]).2.2
      ⟨AccountCategory.mk 2 .REVENUE, by simp, rfl⟩
  have hc2 : c = AccountCategory.mk 2 .REVENUE := by
    have heval : ([AccountCategory.mk 1 .EXPENSE, AccountCategory.mk 2 .REVENUE,
          AccountCategory.mk 3 .REVENUE].filter
            (fun x => x.account_type = AccountType.REVENUE)).head? =
        some (AccountCategory.mk 2 .REVENUE) := by decide
    rw [heval] at hc
    exact (Option.some_injective _ hc).symm
  rw [hc2] at hsnd
  exact hsnd

/-- Applying a movement to the database never changes any product's
unit price. -/
theorem createMovement_unit_price (db : ProductDb) (m : StockMovement)
    (i : ℕ) :
    (ProductDb.createMovement db m i).unit_price = (db i).unit_price := by
  unfold ProductDb.createMovement
  split_ifs with h
  · exact (applyNew_frame (db i) m).2.2.2
  · rfl

/-- Applying a movement to the database changes only the referenced
product's quantity, by the movement's signed delta. -/
theorem createMovement_quantity (db : ProductDb) (m : StockMovement)
    (i : ℕ) :
    (ProductDb.createMovement db m i).quantity_in_stock =
      if i = m.product_id then (db i).quantity_in_stock + m.signedDelta
      else (db i).quantity_in_stock := by
  unfold ProductDb.createMovement
  split_ifs with h <;> simp [applyNew_quantity]

/-- The movement built for an ingredient depends on the database only
through the product's unit price; databases agreeing on prices build
the same movement. -/
theorem ingredientMovement_price_invariant (db db' : ProductDb)
    (oi : OrderItem) (ing : MenuItemIngredient)
    (h : ∀ i, (db' i).unit_price = (db i).unit_price) :
    ingredientMovement db' oi ing = ingredientMovement db oi ing := by
  unfold ingredientMovement
  rw [h]

/-- Full characterisation of the deduction loop, for any initial
accumulator: the movements appended are one per ingredient, built
against the initial database's prices; unit prices are preserved; and
each product's stock drops by the total recipe demand against it. -/
theorem deduct_foldl_spec (oi : OrderItem) (l : List MenuItemIngredient)
    (db : ProductDb) (ms0 : List StockMovement) :
    (l.foldl (deductStep oi) (db, ms0)).2 =
        ms0 ++ l.map (ingredientMovement db oi) ∧
      (∀ i, ((l.foldl (deductStep oi) (db, ms0)).1 i).unit_price =
        (db i).unit_price) ∧
      (∀ i, ((l.foldl (deductStep oi) (db, ms0)).1 i).quantity_in_stock =
        (db i).quantity_in_stock -
          ((l.filter (fun ing => ing.product_id = i)).map
            (fun ing => ing.quantity_needed * (oi.quantity : ℚ))).sum) := by
  induction l generalizing db ms0 with
  | nil => simp
  | cons ing l ih =>
    have hstep : (ing :: l).foldl (deductStep oi) (db, ms0) =
        l.foldl (deductStep oi)
          (ProductDb.createMovement db (ingredientMovement db oi ing),
            ms0 ++ [ingredientMovement db oi ing]) := rfl
    rcases ih (ProductDb.createMovement db (ingredientMovement db oi ing))
        (ms0 ++ [ingredientMovement db oi ing]) with ⟨ih1, ih2, ih3⟩
    have hprice : ∀ i,
        (ProductDb.createMovement db (ingredientMovement db oi ing) i).unit_price =
          (db i).unit_price :=
      fun i => createMovement_unit_price db (ingredientMovement db oi ing) i
    refine ⟨?_, ?_, ?_⟩
    · rw [hstep, ih1]
      have hmap : l.map (ingredientMovement
            (ProductDb.createMovement db (ingredientMovement db oi ing)) oi) =
          l.map (ingredientMovement db oi) :=
        List.map_congr_left (fun a _ =>
          ingredientMovement_price_invariant db _ oi a hprice)
      rw [hmap]
      simp
    · intro i
      rw [hstep, ih2 i, hprice i]
    · intro i
      rw [hstep, ih3 i, createMovement_quantity]
      by_cases hi : ing.product_id = i
      · rw [if_pos (by simpa [ingredientMovement] using hi.symm)]
        have hdelta : (ingredientMovement db oi ing).signedDelta =
            -(ing.quantity_needed * (oi.quantity : ℚ)) := by
          simp [ingredientMovement, StockMovement.signedDelta]
        rw [hdelta]
        rw [List.filter_cons_of_pos (by simp [hi])]
        simp
        ring
      · rw [if_neg (by simpa [ingredientMovement] using
          fun hcontra => hi hcontra.symm)]
        rw [List.filter_cons_of_neg (by simp [hi])]

/-- C4: inserting an OrderItem whose menu item tracks inventory creates
exactly one OUT `StockMovement` per `MenuItemIngredient`, sized
`quantity_needed × quantity` and priced at the ingredient product's
current unit price; each product's stock drops by the quantities drawn
against it. No movements are created when `track_inventory` is false
or when the item is re-saved. -/
theorem orderItem_insert_stock_fanout (db : ProductDb) (oi : OrderItem) :
    (oi.menu_item.track_inventory = true →
      (OrderItem.saveModel db oi true).2 =
          oi.menu_item.ingredients.map (ingredientMovement db oi) ∧
        (OrderItem.saveModel db oi true).2.length =
          oi.menu_item.ingredients.length ∧
        (∀ m ∈ (OrderItem.saveModel db oi true).2,
          m.movement_type = .OUT ∧
            m.unit_price = (db m.product_id).unit_price) ∧
        (∀ ing ∈ oi.menu_item.ingredients,
          StockMovement.mk ing.product_id .OUT
              (ing.quantity_needed * (oi.quantity : ℚ))
              ((db ing.product_id).unit_price) ∈
            (OrderItem.saveModel db oi true).2) ∧
        (∀ i, ((OrderItem.saveModel db oi true).1 i).quantity_in_stock =
          (db i).quantity_in_stock -
            ((oi.menu_item.ingredients.filter
                (fun ing => ing.product_id = i)).map
              (fun ing => ing.quantity_needed * (oi.quantity : ℚ))).sum)) ∧
    (oi.menu_item.track_inventory = false →
      OrderItem.saveModel db oi true = (db, [])) ∧
    (OrderItem.saveModel db oi false = (db, [])) := by
  refine ⟨fun htrack => ?_, fun htrack => ?_, ?_⟩
  · have hsave : OrderItem.saveModel db oi true =
        OrderItem.deduct_from_inventory db oi := by
      simp [OrderItem.saveModel, htrack]
    rcases deduct_foldl_spec oi oi.menu_item.ingredients db [] with ⟨h1, _, h3⟩
    have hsnd : (OrderItem.saveModel db oi true).2 =
        oi.menu_item.ingredients.map (ingredientMovement db oi) := by
      rw [hsave]
      unfold OrderItem.deduct_from_inventory
      rw [h1]
      simp
    refine ⟨hsnd, by rw [hsnd]; simp, ?_, ?_, ?_⟩
    · intro m hm
      rw [hsnd] at hm
      rcases List.mem_map.mp hm with ⟨ing, _, rfl⟩
      exact ⟨rfl, rfl⟩
    · intro ing hing
      rw [hsnd]
      exact List.mem_map.mpr ⟨ing, hing, rfl⟩
    · intro i
      rw [hsave]
      unfold OrderItem.deduct_from_inventory
      exact h3 i
  · simp [OrderItem.saveModel, htrack]
  · simp [OrderItem.saveModel]

/-- Witness for C4: a tracked menu item with one ingredient (product 1,
2 units needed) ordered 3 times creates one OUT movement of 6 units at
the product's price 4 and leaves product 1 at 94 units. -/
theorem orderItem_insert_stock_fanout_witness :
    (OrderItem.saveModel (fun i => Product.mk i 100 0 0 4)
        (OrderItem.mk (MenuItem.mk true [MenuItemIngredient.mk 1 2]) 3 10)
        true).2 =
        [StockMovement.mk 1 .OUT 6 4] ∧
      ((OrderItem.saveModel (fun i => Product.mk i 100 0 0 4)
          (OrderItem.mk (MenuItem.mk true [MenuItemIngredient.mk 1 2]) 3 10)
          true).1 1).quantity_in_stock = 94 := by
  rcases (orderItem_insert_stock_fanout (fun i => Product.mk i 100 0 0 4)
      (OrderItem.mk (MenuItem.mk true [MenuItemIngredient.mk 1 2]) 3 10)).1
      rfl with ⟨hsnd, _, _, _, hq⟩
  constructor
  · rw [hsnd]
    simp [ingredientMovement]
    norm_num
  · rw [hq 1]
    norm_num

/-- C7 (amended): the `unique_together` constraint on
(table, reservation_date, time_slot) applies to every existing
reservation regardless of status: insertion fails exactly when any
reservation — active or not — already occupies the key; in particular
an active (PENDING/CONFIRMED) reservation makes insertion fail. Only
the advisory `Table.is_available_at` check distinguishes active
statuses. -/
theorem reservation_unique_together_all_statuses (db : List Reservation)
    (r : Reservation) :
    ((insertReservation db r).isOk = false ↔
      ∃ e ∈ db, Reservation.sameKey e r = true) ∧
    (∀ e ∈ db, e.status.isActive = true → Reservation.sameKey e r = true →
      (insertReservation db r).isOk = false) ∧
    (Table.is_available_at db r.table_id r.reservation_date r.time_slot =
        false ↔
      ∃ e ∈ db, Reservation.sameKey e r = true ∧ e.status.isActive = true) := by
  have h1 : (insertReservation db r).isOk = false ↔
      ∃ e ∈ db, Reservation.sameKey e r = true := by
    unfold insertReservation
    split_ifs with h
    · constructor
      · intro _
        simpa [List.any_eq_true] using h
      · intro _
        rfl
    · constructor
      · intro hcontra
        simp [Except.isOk, Except.toBool] at hcontra
      · intro hcontra
        rw [List.any_eq_true] at h
        exact absurd hcontra h
  refine ⟨h1, fun e he _ hkey => h1.mpr ⟨e, he, hkey⟩, ?_⟩
  unfold Table.is_available_at
  simp only [Bool.not_eq_false', List.any_eq_true, Reservation.sameKey,
    Bool.and_eq_true, decide_eq_true_eq]

/-- Witness for C7 (amended): inserting over an existing CONFIRMED
reservation for the same table, date and slot fails. -/
theorem reservation_unique_together_all_statuses_witness :
    (insertReservation [Reservation.mk 2 5 "20:00" .CONFIRMED]
        (Reservation.mk 2 5 "20:00" .PENDING)).isOk = false :=
  (reservation_unique_together_all_statuses
      [Reservation.mk 2 5 "20:00" .CONFIRMED]
      (Reservation.mk 2 5 "20:00" .PENDING)).2.1
    (Reservation.mk 2 5 "20:00" .CONFIRMED) (by simp) rfl (by decide)

/-- Counterexample for C7 as stated: a CANCELLED (inactive) reservation
for table 1, day 0, slot 19:30 still blocks a new reservation for the
same combination — the insert raises a uniqueness violation even though
no active reservation exists, contradicting the claim that inactive
statuses do not block. -/
theorem reservation_inactive_status_blocks :
    (insertReservation [Reservation.mk 1 0 "19:30" .CANCELLED]
        (Reservation.mk 1 0 "19:30" .PENDING)).isOk = false ∧
      (Reservation.mk 1 0 "19:30" .CANCELLED).status.isActive = false ∧
      Table.is_available_at [Reservation.mk 1 0 "19:30" .CANCELLED] 1 0
          "19:30" = true := by
  refine ⟨by decide, rfl, by decide⟩

end Resto
